import Mathlib

/-!
Shallow embedding of `admin/tool/usertours/amd/src/configurationtour.js`.

The module derives a dependent "exclude categories" multi-select from a
primary "include categories" multi-select.  DOM `<option>` elements are
modelled as `DOMOption` records, `<select>` elements as `Select` records
(option list plus the visible-row-count `size` attribute).  JS strings are
modelled as `List Char`; JS exceptions (`TypeError` on a `null` DOM lookup)
are modelled by `Option`-valued functions returning `none`.
-/

namespace ConfigurationTour

/-- JS strings (option values and display texts) are lists of characters. -/
abbrev Text := List Char

/-- Mirrors line 23: `const ANY_VALUE = "__ANYVALUE__"`. -/
def ANY_VALUE : Text := "__ANYVALUE__".toList

/-- The path delimiter `" / "` used by the source (lines 112, 154). -/
def SEP : Text := [' ', '/', ' ']

/-- A rendered `<option>` element: its `value`, display `text`, and the
`selected` / `disabled` flags. -/
structure DOMOption where
  value : Text
  text : Text
  selected : Bool
  disabled : Bool
deriving DecidableEq

/-- A `<select>` element: its ordered option list and its `size` attribute
(the visible row count). -/
structure Select where
  options : List DOMOption
  size : Nat
deriving DecidableEq

/-- Models `select.querySelector('option[value="v"]')` and
`options.find(opt => opt.value === v)`: the first option with the given
value, or `none` (JS `null`). -/
def findOption (v : Text) (opts : List DOMOption) : Option DOMOption :=
  opts.find? (fun o => decide (o.value = v))

/-- Models `new Set(Array.from(select.selectedOptions).map(o => o.value))`
(lines 93, 97, 139): the set of values of the currently selected options.
Only membership and cardinality of the set are consumed by the source, so a
deduplicated list is a faithful model. -/
def selectedValues (s : Select) : List Text :=
  ((s.options.filter (fun o => o.selected)).map (fun o => o.value)).dedup

/-- Models an in-place mutation of the option returned by `querySelector`:
the first option with value `v` is replaced by `f` of it, all other options
are untouched. -/
def updateFirstOption (v : Text) (f : DOMOption → DOMOption) :
    List DOMOption → List DOMOption
  | [] => []
  | o :: rest =>
    if o.value = v then f o :: rest else o :: updateFirstOption v f rest

/-- Mirrors line 73: `selectedCategories.size === 0 ||
(selectedCategories.size === 1 && selectedCategories.has(ANY_VALUE))`. -/
def isAnySelectedOf (vals : List Text) : Bool :=
  decide (vals.length = 0 ∨ (vals.length = 1 ∧ ANY_VALUE ∈ vals))

/-- Mirrors lines 75-76: `anyOption.selected = isAnySelected;
anyOption.disabled = !isAnySelected`. -/
def anyFlagUpdate (isAny : Bool) (o : DOMOption) : DOMOption :=
  { o with selected := isAny, disabled := !isAny }

/-- Mirrors `updateAnyOptionSelection` (lines 71-83).  `none` models the
`TypeError` thrown at line 75 when the sentinel option is absent
(`querySelector` returned `null`).  Returns the computed `isAnySelected`
flag, the mutated select, and the (possibly extended) selected-value set. -/
def updateAnyOptionSelection (categorySelect : Select)
    (selectedCategories : List Text) : Option (Bool × Select × List Text) :=
  match findOption ANY_VALUE categorySelect.options with
  | none => none
  | some _ =>
    let isAnySelected := isAnySelectedOf selectedCategories
    let newOptions := updateFirstOption ANY_VALUE (anyFlagUpdate isAnySelected)
      categorySelect.options
    let newSelected :=
      if isAnySelected then
        (if ANY_VALUE ∈ selectedCategories then selectedCategories
         else selectedCategories ++ [ANY_VALUE])
      else selectedCategories
    some (isAnySelected, { categorySelect with options := newOptions }, newSelected)

/-- Mirrors line 112: `option.text.startsWith(selectedOption.text + " / ")`. -/
def startsWithCheck (selText candText : Text) : Bool :=
  (selText ++ SEP).isPrefixOf candText

/-- Mirrors the `Array.from(selectedCategories).some(...)` callback of
lines 110-113, with JS short-circuiting: for each selected value in turn,
look up its option and test the text check; `none` models the `TypeError`
on a failed lookup (`selectedOption` is `null`). -/
def isChildCheck (opts : List DOMOption) (t : Text) : List Text → Option Bool
  | [] => some false
  | s :: rest =>
    match findOption s opts with
    | none => none
    | some so =>
      if startsWithCheck so.text t then some true else isChildCheck opts t rest

/-- Models `Map.prototype.set`: if the key is present its value is replaced
in place, otherwise the pair is appended (insertion order preserved). -/
def mapSet (m : List (Text × Text)) (k v : Text) : List (Text × Text) :=
  if k ∈ m.map Prod.fst then
    m.map (fun p => if p.1 = k then (k, v) else p)
  else m ++ [(k, v)]

/-- Mirrors the `forEach` of lines 100-120 building the `excludeOptions`
map over the non-sentinel options, threading the map as an accumulator.
`none` propagates a thrown lookup failure from `isChildCheck`. -/
def buildExcludeMap (lookupOpts : List DOMOption) (isAny : Bool)
    (sels : List Text) :
    List DOMOption → List (Text × Text) → Option (List (Text × Text))
  | [], m => some m
  | o :: rest, m =>
    if isAny then
      if o.value ∈ sels then buildExcludeMap lookupOpts isAny sels rest m
      else buildExcludeMap lookupOpts isAny sels rest (mapSet m o.value o.text)
    else
      match isChildCheck lookupOpts o.text sels with
      | none => none
      | some true =>
        buildExcludeMap lookupOpts isAny sels rest (mapSet m o.value o.text)
      | some false => buildExcludeMap lookupOpts isAny sels rest m

/-- Models `a.localeCompare(b) <= 0` under code-point order (the locale
dependence of `localeCompare` is outside the model; no claim depends on
the exact order, only on the sort being a deterministic permutation). -/
def textLe : Text → Text → Bool
  | [], _ => true
  | _ :: _, [] => false
  | a :: as, b :: bs => if a = b then textLe as bs else decide (a < b)

/-- Insertion step of the stable sort modelling `Array.prototype.sort`
with the comparator of line 124 (compare the display texts). -/
def insertByText (kv : Text × Text) : List (Text × Text) → List (Text × Text)
  | [] => [kv]
  | kv2 :: rest =>
    if textLe kv2.2 kv.2 then kv2 :: insertByText kv rest else kv :: kv2 :: rest

/-- Models `.sort(([, a], [, b]) => a.localeCompare(b))` of line 124 as a
stable insertion sort by display text. -/
def sortByText : List (Text × Text) → List (Text × Text)
  | [] => []
  | kv :: rest => insertByText kv (sortByText rest)

/-- Mirrors `adjustHeight` (lines 60-62):
`select.size = Math.min(select.options.length || 1, 10)`. -/
def adjustHeight (select : Select) : Select :=
  { select with
    size := min (if select.options.length = 0 then 1 else select.options.length) 10 }

/-- Mirrors `updateExcludeCategories` (lines 91-131).  `none` models a
thrown `TypeError` (sentinel option absent, or a selected-value lookup
failing inside the `some` callback); on success returns the mutated
primary select and the re-rendered exclude select. -/
def updateExcludeCategories (categorySelect excludeSelect : Select) :
    Option (Select × Select) :=
  let selectedCategories := selectedValues categorySelect
  match updateAnyOptionSelection categorySelect selectedCategories with
  | none => none
  | some (isAnySelected, categorySelect', selectedCategories') =>
    let excludeSelected := selectedValues excludeSelect
    match buildExcludeMap categorySelect'.options isAnySelected selectedCategories'
        (categorySelect'.options.filter (fun o => decide (o.value ≠ ANY_VALUE))) [] with
    | none => none
    | some excludeOptions =>
      let rendered := (sortByText excludeOptions).map (fun kv =>
        { value := kv.1, text := kv.2,
          selected := decide (kv.1 ∈ excludeSelected), disabled := false : DOMOption })
      some (categorySelect', adjustHeight { excludeSelect with options := rendered })

/-- Models `text.split(' / ')` (JS `String.prototype.split` with the
three-character separator `" / "`, leftmost non-overlapping matches):
returns the head segment paired with the remaining segments. -/
def splitPathAux : List Char → List Char × List (List Char)
  | [] => ([], [])
  | [c] => ([c], [])
  | [c, d] => ([c, d], [])
  | c :: d :: e :: rest =>
    if c = ' ' ∧ d = '/' ∧ e = ' ' then
      let p := splitPathAux rest
      ([], p.1 :: p.2)
    else
      let p := splitPathAux (d :: e :: rest)
      (c :: p.1, p.2)

/-- Models `text.split(' / ')` of lines 154 and 161. -/
def splitPath (s : Text) : List Text :=
  (splitPathAux s).1 :: (splitPathAux s).2

/-- Mirrors `isParentOrChildPath` (lines 174-182): the two segment lists
agree on their common length. -/
def isParentOrChildPath : List Text → List Text → Bool
  | [], _ => true
  | _ :: _, [] => true
  | a :: as, b :: bs => if a = b then isParentOrChildPath as bs else false

/-- Mirrors the `some` callback of lines 156-163 with JS short-circuiting:
the sentinel value yields `false` without a lookup; otherwise the selected
option is looked up (`none` models the `TypeError` on a failed lookup) and
the two split paths are compared. -/
def disabledCheck (categoryOptions : List DOMOption) (currentPath : List Text) :
    List Text → Option Bool
  | [] => some false
  | s :: rest =>
    if s = ANY_VALUE then disabledCheck categoryOptions currentPath rest
    else
      match findOption s categoryOptions with
      | none => none
      | some so =>
        if isParentOrChildPath currentPath (splitPath so.text) then some true
        else disabledCheck categoryOptions currentPath rest

/-- Mirrors the body of the `forEach` of lines 142-164 for one option:
skip the sentinel, enable a selected option, otherwise recompute the
`disabled` flag from the selected categories. -/
def updateCategoryOption (categoryOptions : List DOMOption)
    (selectedCategories : List Text) (o : DOMOption) : Option DOMOption :=
  if o.value = ANY_VALUE then some o
  else if o.value ∈ selectedCategories then some { o with disabled := false }
  else
    match disabledCheck categoryOptions (splitPath o.text) selectedCategories with
    | none => none
    | some d => some { o with disabled := d }

/-- The `forEach` of lines 142-164 over the whole option list. -/
def updateCategoryOptions (categoryOptions : List DOMOption)
    (selectedCategories : List Text) : List DOMOption → Option (List DOMOption)
  | [] => some []
  | o :: rest =>
    match updateCategoryOption categoryOptions selectedCategories o with
    | none => none
    | some o' =>
      match updateCategoryOptions categoryOptions selectedCategories rest with
      | none => none
      | some rest' => some (o' :: rest')

/-- Mirrors `updateCategorySelectionOptions` (lines 138-165). -/
def updateCategorySelectionOptions (categorySelect : Select) : Option Select :=
  match updateCategoryOptions categorySelect.options (selectedValues categorySelect)
      categorySelect.options with
  | none => none
  | some opts => some { categorySelect with options := opts }

/-- The two controls a change listener can be attached to. -/
inductive ControlId where
  | category
  | exclude
deriving DecidableEq

/-- The two change handlers registered by the source: the primary
handler of lines 39-42 and the exclude handler of lines 44-46. -/
inductive Handler where
  | primaryChange
  | excludeChange
deriving DecidableEq

/-- Result of running `initConfigurationCategoryFilter`: the registered
change listeners and the two controls after the immediate recomputation
(`none` components model an absent DOM element). -/
structure InitOutcome where
  listeners : List (ControlId × Handler)
  categoryControl : Option Select
  excludeControl : Option Select
deriving DecidableEq

/-- Mirrors `initConfigurationCategoryFilter` (lines 33-53): when both
controls are found, register both change listeners and run the immediate
recomputations of lines 49-51 in source order; otherwise do nothing.
The outer `none` models an exception escaping from lines 49-51. -/
def initConfigurationCategoryFilter (categorySelect excludeSelect : Option Select) :
    Option InitOutcome :=
  match categorySelect, excludeSelect with
  | some cs, some es =>
    match updateExcludeCategories cs es with
    | none => none
    | some (cs', es') =>
      match updateCategorySelectionOptions cs' with
      | none => none
      | some cs'' =>
        match updateCategorySelectionOptions es' with
        | none => none
        | some es'' =>
          some { listeners := [(ControlId.category, Handler.primaryChange),
                               (ControlId.exclude, Handler.excludeChange)],
                 categoryControl := some cs'', excludeControl := some es'' }
  | c, e => some { listeners := [], categoryControl := c, excludeControl := e }

/-- Semantics of one change-handler invocation on the pair of controls:
the primary handler (lines 39-42) runs `updateCategorySelectionOptions`
on the primary and then `updateExcludeCategories`; the exclude handler
(lines 44-46) runs `updateCategorySelectionOptions` on the exclude
control only. -/
def runHandler : Handler → Select → Select → Option (Select × Select)
  | Handler.primaryChange, c, e =>
    match updateCategorySelectionOptions c with
    | none => none
    | some c' => updateExcludeCategories c' e
  | Handler.excludeChange, c, e =>
    match updateCategorySelectionOptions e with
    | none => none
    | some e' => some (c, e')

/-- Mirrors the exported `init` (lines 25-28). -/
def init (categorySelect excludeSelect : Option Select) : Option InitOutcome :=
  initConfigurationCategoryFilter categorySelect excludeSelect

/-! Pure recomputation pipeline.  The following definitions restate the
success path of `updateExcludeCategories` as total functions; the lemma
`updateExcludeCategories_spec` below proves that whenever the primary
control contains the sentinel option, `updateExcludeCategories` succeeds
and returns exactly this pipeline's output. -/

/-- The primary select after the sentinel-flag mutation of lines 75-76. -/
def applyAnyUpdate (P : Select) : Select :=
  { P with options := (updateFirstOption ANY_VALUE
      (anyFlagUpdate (isAnySelectedOf (selectedValues P))) P.options) }

/-- The selected-value set after the conditional `add(ANY_VALUE)` of
lines 78-80. -/
def postAddSelected (P : Select) : List Text :=
  let S := selectedValues P
  if isAnySelectedOf S then
    (if ANY_VALUE ∈ S then S else S ++ [ANY_VALUE])
  else S

/-- Pure form of one `some`-callback step of lines 110-113: look up the
selected value and test the text check (`false` on a failed lookup, which
`updateExcludeCategories_spec` proves unreachable). -/
def childTest (opts : List DOMOption) (t : Text) (s : Text) : Bool :=
  match findOption s opts with
  | some so => startsWithCheck so.text t
  | none => false

/-- Pure form of the per-option inclusion condition of lines 103-118. -/
def excludeQualify (lookupOpts : List DOMOption) (isAny : Bool)
    (sels : List Text) (o : DOMOption) : Bool :=
  if isAny then decide (o.value ∉ sels) else sels.any (childTest lookupOpts o.text)

/-- Pure form of the map-building `forEach` of lines 100-120. -/
def buildPure (qualify : DOMOption → Bool) :
    List DOMOption → List (Text × Text) → List (Text × Text)
  | [], m => m
  | o :: rest, m =>
    if qualify o then buildPure qualify rest (mapSet m o.value o.text)
    else buildPure qualify rest m

/-- The `excludeOptions` map computed by a successful run of
`updateExcludeCategories` on primary select `P`. -/
def excludeMapOf (P : Select) : List (Text × Text) :=
  let P' := applyAnyUpdate P
  buildPure (excludeQualify P'.options (isAnySelectedOf (selectedValues P))
      (postAddSelected P))
    (P'.options.filter (fun o => decide (o.value ≠ ANY_VALUE))) []

/-- The exclude select rendered by a successful run of
`updateExcludeCategories` (lines 122-130). -/
def renderExclude (P E : Select) : Select :=
  adjustHeight { E with options := (sortByText (excludeMapOf P)).map (fun kv =>
    { value := kv.1, text := kv.2,
      selected := decide (kv.1 ∈ selectedValues E), disabled := false }) }

/-- Joins segments with the `" / "` delimiter (inverse of `splitPath`). -/
def joinPath : List Text → Text
  | [] => []
  | [x] => x
  | x :: y :: xs => x ++ SEP ++ joinPath (y :: xs)

/-! Pure form of `updateCategorySelectionOptions` and its correctness. -/

/-- Pure form of one `some`-callback step of lines 156-163 (`false` on a
failed lookup, proved unreachable below). -/
def disabledTest (categoryOptions : List DOMOption) (currentPath : List Text)
    (s : Text) : Bool :=
  if s = ANY_VALUE then false
  else
    match findOption s categoryOptions with
    | some so => isParentOrChildPath currentPath (splitPath so.text)
    | none => false

/-- Pure form of the per-option body of the `forEach` of lines 142-164. -/
def pureCategoryOption (categoryOptions : List DOMOption) (sels : List Text)
    (o : DOMOption) : DOMOption :=
  if o.value = ANY_VALUE then o
  else if o.value ∈ sels then { o with disabled := false }
  else { o with disabled := sels.any (disabledTest categoryOptions (splitPath o.text)) }

/-! Concrete states used by the witnesses: the spec's own running example
(primary options Science, Science / Physics, Science / Physics / Optics,
Arts plus the sentinel; Science selected), and an empty exclude control. -/

def sampleP : Select :=
  ⟨[⟨ANY_VALUE, "Any".toList, false, true⟩,
    ⟨"c1".toList, "Science".toList, true, false⟩,
    ⟨"c2".toList, "Science / Physics".toList, false, false⟩,
    ⟨"c3".toList, "Science / Physics / Optics".toList, false, false⟩,
    ⟨"c4".toList, "Arts".toList, false, false⟩], 5⟩

def sampleE : Select := ⟨[], 1⟩

/-! Helper lemmas about the DOM primitives. -/

theorem findOption_isSome_iff (v : Text) (opts : List DOMOption) :
    (findOption v opts).isSome ↔ ∃ o ∈ opts, o.value = v := by
  simp [findOption, List.find?_isSome]

theorem findOption_mem {v : Text} {opts : List DOMOption} {a : DOMOption}
    (h : findOption v opts = some a) : a ∈ opts :=
  List.mem_of_find?_eq_some h

theorem findOption_value {v : Text} {opts : List DOMOption} {a : DOMOption}
    (h : findOption v opts = some a) : a.value = v := by
  have := List.find?_some h
  simpa using this

theorem mem_selectedValues {v : Text} {s : Select} :
    v ∈ selectedValues s ↔ ∃ o ∈ s.options, o.selected = true ∧ o.value = v := by
  simp only [selectedValues, List.mem_dedup, List.mem_map, List.mem_filter]
  constructor
  · rintro ⟨o, ⟨ho, hsel⟩, hv⟩
    exact ⟨o, ho, hsel, hv⟩
  · rintro ⟨o, ho, hsel, hv⟩
    exact ⟨o, ⟨ho, hsel⟩, hv⟩

theorem dedup_eq_singleton {α : Type} [DecidableEq α] {l : List α} {a : α}
    (h1 : l ≠ []) (h2 : ∀ x ∈ l, x = a) : l.dedup = [a] := by
  induction l with
  | nil => simp at h1
  | cons b t ih =>
    have hb : b = a := h2 b (by simp)
    subst hb
    rcases eq_or_ne t [] with rfl | ht
    · simp
    · have heq := ih ht (fun x hx => h2 x (by simp [hx]))
      have hm : b ∈ t := by
        cases t with
        | nil => simp at ht
        | cons c u =>
          have hc := h2 c (by simp)
          subst hc
          simp
      rw [List.dedup_cons_of_mem hm, heq]

theorem updateFirstOption_cons_pos {v : Text} {o : DOMOption}
    (f : DOMOption → DOMOption) (rest : List DOMOption) (h : o.value = v) :
    updateFirstOption v f (o :: rest) = f o :: rest := by
  unfold updateFirstOption
  rw [if_pos h]

theorem updateFirstOption_cons_neg {v : Text} {o : DOMOption}
    (f : DOMOption → DOMOption) (rest : List DOMOption) (h : ¬ o.value = v) :
    updateFirstOption v f (o :: rest) = o :: updateFirstOption v f rest := by
  show (if o.value = v then f o :: rest else o :: updateFirstOption v f rest) =
    o :: updateFirstOption v f rest
  rw [if_neg h]

theorem findOption_cons_pos {v : Text} {o : DOMOption} (rest : List DOMOption)
    (h : o.value = v) : findOption v (o :: rest) = some o := by
  unfold findOption
  rw [List.find?_cons_of_pos _ (by simp [h])]

theorem findOption_cons_neg {v : Text} {o : DOMOption} (rest : List DOMOption)
    (h : ¬ o.value = v) : findOption v (o :: rest) = findOption v rest := by
  unfold findOption
  rw [List.find?_cons_of_neg _ (by simp [h])]

theorem updateFirstOption_map_vt {v : Text} {f : DOMOption → DOMOption}
    (hf : ∀ o, (f o).value = o.value ∧ (f o).text = o.text) (l : List DOMOption) :
    (updateFirstOption v f l).map (fun o => (o.value, o.text)) =
      l.map (fun o => (o.value, o.text)) := by
  induction l with
  | nil => rfl
  | cons o rest ih =>
    by_cases h : o.value = v
    · simp [updateFirstOption, h, (hf o).1, (hf o).2]
    · simp [updateFirstOption, h, ih]

theorem updateFirstOption_map_value {v : Text} {f : DOMOption → DOMOption}
    (hf : ∀ o, (f o).value = o.value) (l : List DOMOption) :
    (updateFirstOption v f l).map (fun o => o.value) = l.map (fun o => o.value) := by
  induction l with
  | nil => rfl
  | cons o rest ih =>
    by_cases h : o.value = v
    · simp [updateFirstOption, h, hf o]
    · simp [updateFirstOption, h, ih]

theorem findOption_updateFirstOption_self {v : Text} {f : DOMOption → DOMOption}
    (hval : ∀ o, (f o).value = o.value) (l : List DOMOption) :
    findOption v (updateFirstOption v f l) = (findOption v l).map f := by
  induction l with
  | nil => rfl
  | cons o rest ih =>
    by_cases h : o.value = v
    · rw [updateFirstOption_cons_pos f rest h, findOption_cons_pos rest h,
        findOption_cons_pos rest (by rw [hval o]; exact h)]
      rfl
    · rw [updateFirstOption_cons_neg f rest h, findOption_cons_neg _ h,
        findOption_cons_neg rest h, ih]

theorem updateFirstOption_eq_self {v : Text} {f : DOMOption → DOMOption}
    {l : List DOMOption} {a : DOMOption}
    (h : findOption v l = some a) (hfix : f a = a) : updateFirstOption v f l = l := by
  induction l with
  | nil => simp [findOption] at h
  | cons o rest ih =>
    by_cases hv : o.value = v
    · have ho : o = a := by
        rw [findOption_cons_pos rest hv] at h
        exact Option.some.inj h
      subst ho
      rw [updateFirstOption_cons_pos f rest hv, hfix]
    · rw [findOption_cons_neg rest hv] at h
      rw [updateFirstOption_cons_neg f rest hv, ih h]

theorem mem_updateFirstOption {v : Text} {f : DOMOption → DOMOption}
    {o : DOMOption} {l : List DOMOption} (h : o ∈ updateFirstOption v f l) :
    o ∈ l ∨ ∃ a ∈ l, a.value = v ∧ o = f a := by
  induction l with
  | nil => simp [updateFirstOption] at h
  | cons b rest ih =>
    by_cases hv : b.value = v
    · simp only [updateFirstOption, hv, if_pos, List.mem_cons] at h
      rcases h with h | h
      · right; exact ⟨b, by simp, hv, h⟩
      · left; simp [h]
    · simp only [updateFirstOption, hv, if_neg, List.mem_cons, not_false_iff] at h
      rcases h with h | h
      · left; simp [h]
      · rcases ih h with h' | ⟨a, ha, hav, hoa⟩
        · left; simp [h']
        · right; exact ⟨a, by simp [ha], hav, hoa⟩

theorem filter_map_updateFirstOption {v : Text} {f : DOMOption → DOMOption}
    {l : List DOMOption}
    (hf : ∀ o, o.value = v → ((f o).selected = o.selected ∧ (f o).value = o.value)) :
    ((updateFirstOption v f l).filter (fun o => o.selected)).map (fun o => o.value) =
      (l.filter (fun o => o.selected)).map (fun o => o.value) := by
  induction l with
  | nil => rfl
  | cons o rest ih =>
    by_cases hv : o.value = v
    · obtain ⟨hs, hval⟩ := hf o hv
      by_cases hsel : o.selected
      · simp [updateFirstOption, hv, List.filter_cons, hs, hsel, hval]
      · simp [updateFirstOption, hv, List.filter_cons, hs, hsel]
    · by_cases hsel : o.selected <;>
        simp [updateFirstOption, hv, List.filter_cons, hsel, ih]

theorem findOption_text_congr {l₁ l₂ : List DOMOption}
    (h : l₁.map (fun o => (o.value, o.text)) = l₂.map (fun o => (o.value, o.text)))
    (s : Text) :
    (findOption s l₁).map (fun o => o.text) = (findOption s l₂).map (fun o => o.text) := by
  induction l₁ generalizing l₂ with
  | nil =>
    cases l₂ with
    | nil => rfl
    | cons b t => simp at h
  | cons a t ih =>
    cases l₂ with
    | nil => simp at h
    | cons b u =>
      simp only [List.map_cons, List.cons.injEq, Prod.mk.injEq] at h
      obtain ⟨⟨hv, ht⟩, hrest⟩ := h
      by_cases ha : a.value = s
      · have hb : b.value = s := hv ▸ ha
        rw [findOption_cons_pos t ha, findOption_cons_pos u hb]
        simp [ht]
      · have hb : ¬ b.value = s := hv ▸ ha
        rw [findOption_cons_neg t ha, findOption_cons_neg u hb]
        exact ih hrest

theorem findOption_isSome_congr {l₁ l₂ : List DOMOption}
    (h : l₁.map (fun o => (o.value, o.text)) = l₂.map (fun o => (o.value, o.text)))
    (s : Text) : (findOption s l₁).isSome = (findOption s l₂).isSome := by
  have := findOption_text_congr h s
  cases h₁ : findOption s l₁ <;> cases h₂ : findOption s l₂ <;>
    simp [h₁, h₂] at this ⊢

theorem childTest_congr {l₁ l₂ : List DOMOption}
    (h : l₁.map (fun o => (o.value, o.text)) = l₂.map (fun o => (o.value, o.text)))
    (t s : Text) : childTest l₁ t s = childTest l₂ t s := by
  have htext := findOption_text_congr h s
  unfold childTest
  cases h₁ : findOption s l₁ <;> cases h₂ : findOption s l₂ <;>
    simp [h₁, h₂] at htext ⊢
  rw [htext]

/-! Lemmas about the exclude-map construction and the sort. -/

theorem keys_mapSet_of_mem {m : List (Text × Text)} {k v : Text}
    (h : k ∈ m.map Prod.fst) : (mapSet m k v).map Prod.fst = m.map Prod.fst := by
  unfold mapSet
  rw [if_pos h, List.map_map]
  apply List.map_congr_left
  intro p _
  by_cases hp : p.1 = k
  · simp [hp]
  · simp [hp]

theorem keys_mapSet_of_not_mem {m : List (Text × Text)} {k v : Text}
    (h : ¬ k ∈ m.map Prod.fst) :
    (mapSet m k v).map Prod.fst = m.map Prod.fst ++ [k] := by
  unfold mapSet
  rw [if_neg h, List.map_append]
  rfl

theorem mem_keys_mapSet {m : List (Text × Text)} {k v x : Text} :
    x ∈ (mapSet m k v).map Prod.fst ↔ x ∈ m.map Prod.fst ∨ x = k := by
  by_cases h : k ∈ m.map Prod.fst
  · rw [keys_mapSet_of_mem h]
    constructor
    · exact Or.inl
    · rintro (hx | rfl)
      · exact hx
      · exact h
  · rw [keys_mapSet_of_not_mem h]
    simp

theorem nodup_keys_mapSet {m : List (Text × Text)} {k v : Text}
    (h : (m.map Prod.fst).Nodup) : ((mapSet m k v).map Prod.fst).Nodup := by
  by_cases hk : k ∈ m.map Prod.fst
  · rw [keys_mapSet_of_mem hk]
    exact h
  · rw [keys_mapSet_of_not_mem hk]
    simp [List.nodup_append, h, hk]

theorem buildPure_cons (q : DOMOption → Bool) (o : DOMOption)
    (rest : List DOMOption) (m : List (Text × Text)) :
    buildPure q (o :: rest) m =
      if q o then buildPure q rest (mapSet m o.value o.text)
      else buildPure q rest m := rfl

theorem mem_keys_buildPure {q : DOMOption → Bool} {l : List DOMOption}
    {m : List (Text × Text)} {x : Text} :
    x ∈ (buildPure q l m).map Prod.fst ↔
      x ∈ m.map Prod.fst ∨ ∃ o ∈ l, q o = true ∧ o.value = x := by
  induction l generalizing m with
  | nil => simp [buildPure]
  | cons o rest ih =>
    rw [buildPure_cons]
    by_cases hq : q o
    · rw [if_pos hq, ih, mem_keys_mapSet]
      constructor
      · rintro ((hm | rfl) | ⟨o', ho', hq', hv'⟩)
        · exact Or.inl hm
        · exact Or.inr ⟨o, by simp, hq, rfl⟩
        · exact Or.inr ⟨o', by simp [ho'], hq', hv'⟩
      · rintro (hm | ⟨o', ho', hq', hv'⟩)
        · exact Or.inl (Or.inl hm)
        · rcases List.mem_cons.mp ho' with rfl | ho''
          · exact Or.inl (Or.inr hv'.symm)
          · exact Or.inr ⟨o', ho'', hq', hv'⟩
    · rw [if_neg hq, ih]
      constructor
      · rintro (hm | ⟨o', ho', hq', hv'⟩)
        · exact Or.inl hm
        · exact Or.inr ⟨o', by simp [ho'], hq', hv'⟩
      · rintro (hm | ⟨o', ho', hq', hv'⟩)
        · exact Or.inl hm
        · rcases List.mem_cons.mp ho' with rfl | ho''
          · exact absurd hq' (by simp [hq])
          · exact Or.inr ⟨o', ho'', hq', hv'⟩

theorem nodup_keys_buildPure {q : DOMOption → Bool} {l : List DOMOption}
    {m : List (Text × Text)} (h : (m.map Prod.fst).Nodup) :
    ((buildPure q l m).map Prod.fst).Nodup := by
  induction l generalizing m with
  | nil => exact h
  | cons o rest ih =>
    rw [buildPure_cons]
    by_cases hq : q o
    · rw [if_pos hq]
      exact ih (nodup_keys_mapSet h)
    · rw [if_neg hq]
      exact ih h

theorem buildPure_congr {q₁ q₂ : DOMOption → Bool} {l₁ l₂ : List DOMOption}
    {m : List (Text × Text)}
    (hq : ∀ vt : Text × Text, ∀ sel dis sel' dis',
      q₁ ⟨vt.1, vt.2, sel, dis⟩ = q₂ ⟨vt.1, vt.2, sel', dis'⟩)
    (hl : l₁.map (fun o => (o.value, o.text)) = l₂.map (fun o => (o.value, o.text))) :
    buildPure q₁ l₁ m = buildPure q₂ l₂ m := by
  induction l₁ generalizing l₂ m with
  | nil =>
    cases l₂ with
    | nil => rfl
    | cons b t => simp at hl
  | cons a t ih =>
    cases l₂ with
    | nil => simp at hl
    | cons b u =>
      simp only [List.map_cons, List.cons.injEq, Prod.mk.injEq] at hl
      obtain ⟨⟨hv, ht⟩, hrest⟩ := hl
      have hq1 : q₁ a = q₂ b := by
        have h2 := hq (b.value, b.text) a.selected a.disabled b.selected b.disabled
        calc q₁ a = q₁ ⟨b.value, b.text, a.selected, a.disabled⟩ := by
              rw [← hv, ← ht]
          _ = q₂ ⟨b.value, b.text, b.selected, b.disabled⟩ := h2
          _ = q₂ b := rfl
      rw [buildPure_cons, buildPure_cons]
      by_cases hqa : q₁ a
      · have hqb : q₂ b = true := hq1 ▸ hqa
        rw [if_pos hqa, if_pos hqb, hv, ht]
        exact ih hrest
      · have hqb : ¬ q₂ b = true := hq1 ▸ hqa
        rw [if_neg hqa, if_neg hqb]
        exact ih hrest

theorem isChildCheck_eq {opts : List DOMOption} {t : Text} {sels : List Text}
    (h : ∀ s ∈ sels, (findOption s opts).isSome) :
    isChildCheck opts t sels = some (sels.any (childTest opts t)) := by
  induction sels with
  | nil => rfl
  | cons s rest ih =>
    obtain ⟨so, hso⟩ := Option.isSome_iff_exists.mp (h s (by simp))
    by_cases hp : startsWithCheck so.text t
    · simp [isChildCheck, hso, hp, childTest, List.any_cons]
    · simp only [isChildCheck, hso, hp, if_neg, not_false_iff,
        ih (fun x hx => h x (by simp [hx])), List.any_cons]
      simp [childTest, hso, hp]

theorem buildExcludeMap_cons_any (lookupOpts : List DOMOption) (sels : List Text)
    (o : DOMOption) (rest : List DOMOption) (m : List (Text × Text)) :
    buildExcludeMap lookupOpts true sels (o :: rest) m =
      if o.value ∈ sels then buildExcludeMap lookupOpts true sels rest m
      else buildExcludeMap lookupOpts true sels rest (mapSet m o.value o.text) := rfl

theorem buildExcludeMap_cons_not_any (lookupOpts : List DOMOption) (sels : List Text)
    (o : DOMOption) (rest : List DOMOption) (m : List (Text × Text)) :
    buildExcludeMap lookupOpts false sels (o :: rest) m =
      (match isChildCheck lookupOpts o.text sels with
       | none => none
       | some true => buildExcludeMap lookupOpts false sels rest (mapSet m o.value o.text)
       | some false => buildExcludeMap lookupOpts false sels rest m) := rfl

theorem buildExcludeMap_eq {lookupOpts : List DOMOption} {isAny : Bool}
    {sels : List Text} {l : List DOMOption} {m : List (Text × Text)}
    (h : ∀ s ∈ sels, (findOption s lookupOpts).isSome) :
    buildExcludeMap lookupOpts isAny sels l m =
      some (buildPure (excludeQualify lookupOpts isAny sels) l m) := by
  induction l generalizing m with
  | nil => rfl
  | cons o rest ih =>
    cases isAny with
    | true =>
      rw [buildExcludeMap_cons_any, buildPure_cons]
      by_cases hm : o.value ∈ sels
      · rw [if_pos hm, ih,
          if_neg (show ¬ excludeQualify lookupOpts true sels o = true by
            simp [excludeQualify, hm])]
      · rw [if_neg hm, ih,
          if_pos (show excludeQualify lookupOpts true sels o = true by
            simp [excludeQualify, hm])]
    | false =>
      rw [buildExcludeMap_cons_not_any, buildPure_cons, isChildCheck_eq h]
      by_cases hc : sels.any (childTest lookupOpts o.text)
      · rw [hc, ih,
          if_pos (show excludeQualify lookupOpts false sels o = true by
            simpa [excludeQualify] using hc)]
      · rw [Bool.of_not_eq_true hc, ih,
          if_neg (show ¬ excludeQualify lookupOpts false sels o = true by
            simpa [excludeQualify] using hc)]
        exact ih

theorem insertByText_cons (kv kv2 : Text × Text) (rest : List (Text × Text)) :
    insertByText kv (kv2 :: rest) =
      if textLe kv2.2 kv.2 then kv2 :: insertByText kv rest
      else kv :: kv2 :: rest := rfl

theorem insertByText_perm (kv : Text × Text) (l : List (Text × Text)) :
    (insertByText kv l).Perm (kv :: l) := by
  induction l with
  | nil => exact List.Perm.refl _
  | cons kv2 rest ih =>
    rw [insertByText_cons]
    by_cases h : textLe kv2.2 kv.2
    · rw [if_pos h]
      exact (ih.cons kv2).trans (List.Perm.swap kv kv2 rest)
    · rw [if_neg h]

theorem sortByText_perm (l : List (Text × Text)) : (sortByText l).Perm l := by
  induction l with
  | nil => exact List.Perm.refl _
  | cons kv rest ih =>
    exact (insertByText_perm kv (sortByText rest)).trans (ih.cons kv)

/-! The success path of `updateExcludeCategories` equals the pure pipeline. -/

theorem isAnySelectedOf_eq_true_iff {S : List Text} :
    isAnySelectedOf S = true ↔ S = [] ∨ S = [ANY_VALUE] := by
  unfold isAnySelectedOf
  rw [decide_eq_true_eq]
  constructor
  · rintro (h0 | ⟨h1, hm⟩)
    · exact Or.inl (List.length_eq_zero.mp h0)
    · right
      obtain ⟨x, rfl⟩ := List.length_eq_one.mp h1
      simp only [List.mem_singleton] at hm
      rw [hm]
  · rintro (rfl | rfl) <;> simp

theorem postAddSelected_of_isAny {P : Select}
    (h : isAnySelectedOf (selectedValues P) = true) :
    postAddSelected P = [ANY_VALUE] := by
  simp only [postAddSelected]
  rw [if_pos h]
  rcases isAnySelectedOf_eq_true_iff.mp h with h0 | h1
  · rw [h0]
    simp
  · rw [h1]
    simp

theorem postAddSelected_of_not_isAny {P : Select}
    (h : isAnySelectedOf (selectedValues P) = false) :
    postAddSelected P = selectedValues P := by
  simp only [postAddSelected]
  rw [if_neg (by simp [h])]

theorem applyAnyUpdate_map_vt (P : Select) :
    (applyAnyUpdate P).options.map (fun o => (o.value, o.text)) =
      P.options.map (fun o => (o.value, o.text)) := by
  show (updateFirstOption ANY_VALUE (anyFlagUpdate (isAnySelectedOf (selectedValues P)))
      P.options).map (fun o => (o.value, o.text)) =
    P.options.map (fun o => (o.value, o.text))
  exact updateFirstOption_map_vt (v := ANY_VALUE)
    (f := anyFlagUpdate (isAnySelectedOf (selectedValues P))) (fun _ => ⟨rfl, rfl⟩) P.options

theorem mem_postAddSelected {P : Select} {s : Text} (hs : s ∈ postAddSelected P) :
    s ∈ selectedValues P ∨ s = ANY_VALUE := by
  simp only [postAddSelected] at hs
  by_cases ha : isAnySelectedOf (selectedValues P) = true
  · rw [if_pos ha] at hs
    by_cases hmm : ANY_VALUE ∈ selectedValues P
    · rw [if_pos hmm] at hs
      exact Or.inl hs
    · rw [if_neg hmm] at hs
      rcases List.mem_append.mp hs with h1 | h1
      · exact Or.inl h1
      · simp only [List.mem_singleton] at h1
        exact Or.inr h1
  · rw [if_neg ha] at hs
    exact Or.inl hs

theorem lookups_ok {P : Select} (h : (findOption ANY_VALUE P.options).isSome) :
    ∀ s ∈ postAddSelected P, (findOption s (applyAnyUpdate P).options).isSome := by
  intro s hs
  rw [findOption_isSome_congr (applyAnyUpdate_map_vt P)]
  rcases mem_postAddSelected hs with hm | rfl
  · rw [findOption_isSome_iff]
    obtain ⟨o, ho, _, hv⟩ := mem_selectedValues.mp hm
    exact ⟨o, ho, hv⟩
  · exact h

theorem updateExcludeCategories_spec {P E : Select}
    (h : (findOption ANY_VALUE P.options).isSome) :
    updateExcludeCategories P E = some (applyAnyUpdate P, renderExclude P E) := by
  obtain ⟨a, ha⟩ := Option.isSome_iff_exists.mp h
  show (match updateAnyOptionSelection P (selectedValues P) with
    | none => none
    | some (isAnySelected, categorySelect', selectedCategories') =>
      match buildExcludeMap categorySelect'.options isAnySelected selectedCategories'
          (categorySelect'.options.filter (fun o => decide (o.value ≠ ANY_VALUE))) [] with
      | none => none
      | some excludeOptions =>
        some (categorySelect', adjustHeight { E with
          options := (sortByText excludeOptions).map (fun kv =>
            { value := kv.1, text := kv.2,
              selected := decide (kv.1 ∈ selectedValues E), disabled := false }) })) =
    some (applyAnyUpdate P, renderExclude P E)
  have hupd : updateAnyOptionSelection P (selectedValues P) =
      some (isAnySelectedOf (selectedValues P), applyAnyUpdate P, postAddSelected P) := by
    unfold updateAnyOptionSelection
    rw [ha]
    rfl
  rw [hupd]
  show (match buildExcludeMap (applyAnyUpdate P).options
      (isAnySelectedOf (selectedValues P)) (postAddSelected P)
      ((applyAnyUpdate P).options.filter (fun o => decide (o.value ≠ ANY_VALUE))) [] with
    | none => none
    | some excludeOptions =>
      some (applyAnyUpdate P, adjustHeight { E with
        options := (sortByText excludeOptions).map (fun kv =>
          { value := kv.1, text := kv.2,
            selected := decide (kv.1 ∈ selectedValues E), disabled := false }) })) =
    some (applyAnyUpdate P, renderExclude P E)
  rw [buildExcludeMap_eq (lookups_ok h)]
  rfl

theorem updateExcludeCategories_none_of_no_any {P E : Select}
    (h : findOption ANY_VALUE P.options = none) :
    updateExcludeCategories P E = none := by
  show (match updateAnyOptionSelection P (selectedValues P) with
    | none => none
    | some (isAnySelected, categorySelect', selectedCategories') =>
      match buildExcludeMap categorySelect'.options isAnySelected selectedCategories'
          (categorySelect'.options.filter (fun o => decide (o.value ≠ ANY_VALUE))) [] with
      | none => none
      | some excludeOptions =>
        some (categorySelect', adjustHeight { E with
          options := (sortByText excludeOptions).map (fun kv =>
            { value := kv.1, text := kv.2,
              selected := decide (kv.1 ∈ selectedValues E), disabled := false }) })) = none
  have hupd : updateAnyOptionSelection P (selectedValues P) = none := by
    unfold updateAnyOptionSelection
    rw [h]
  rw [hupd]

theorem updateExcludeCategories_some_inv {P E P' E' : Select}
    (h : updateExcludeCategories P E = some (P', E')) :
    (findOption ANY_VALUE P.options).isSome ∧
      P' = applyAnyUpdate P ∧ E' = renderExclude P E := by
  by_cases hany : (findOption ANY_VALUE P.options).isSome
  · have hs := updateExcludeCategories_spec (E := E) hany
    rw [hs] at h
    have := Option.some.inj h
    refine ⟨hany, ?_, ?_⟩
    · exact (congrArg Prod.fst this).symm
    · exact (congrArg Prod.snd this).symm
  · rw [Option.not_isSome_iff_eq_none] at hany
    rw [updateExcludeCategories_none_of_no_any hany] at h
    exact absurd h (by simp)

theorem renderExclude_options (P E : Select) :
    (renderExclude P E).options = (sortByText (excludeMapOf P)).map (fun kv =>
      { value := kv.1, text := kv.2,
        selected := decide (kv.1 ∈ selectedValues E), disabled := false }) := rfl

theorem renderExclude_size (P E : Select) :
    (renderExclude P E).size =
      min (if (renderExclude P E).options.length = 0 then 1
           else (renderExclude P E).options.length) 10 := rfl

/-! Theory of `splitPath` and `joinPath`. -/

theorem splitPathAux_sep (rest : Text) :
    splitPathAux (' ' :: '/' :: ' ' :: rest) =
      ([], (splitPathAux rest).1 :: (splitPathAux rest).2) := by
  show (if (' ' : Char) = ' ' ∧ ('/' : Char) = '/' ∧ (' ' : Char) = ' ' then
      ([], (splitPathAux rest).1 :: (splitPathAux rest).2)
    else ((' ' :: (splitPathAux ('/' :: ' ' :: rest)).1),
      (splitPathAux ('/' :: ' ' :: rest)).2)) = _
  rw [if_pos ⟨rfl, rfl, rfl⟩]

theorem splitPathAux_cons_neg (c d e : Char) (rest : Text)
    (h : ¬ (c = ' ' ∧ d = '/' ∧ e = ' ')) :
    splitPathAux (c :: d :: e :: rest) =
      ((c :: (splitPathAux (d :: e :: rest)).1), (splitPathAux (d :: e :: rest)).2) := by
  show (if c = ' ' ∧ d = '/' ∧ e = ' ' then
      ([], (splitPathAux rest).1 :: (splitPathAux rest).2)
    else ((c :: (splitPathAux (d :: e :: rest)).1), (splitPathAux (d :: e :: rest)).2)) = _
  rw [if_neg h]

theorem noSlashEnd_cons {c : Char} {s : Text} (h : ¬ ([' ', '/'] <:+ (c :: s))) :
    ¬ ([' ', '/'] <:+ s) := by
  intro hs
  exact h (hs.trans (List.suffix_cons c s))

theorem splitPathAux_append {S : Text} (r : Text) (h : ¬ ([' ', '/'] <:+ S)) :
    splitPathAux (S ++ (' ' :: '/' :: ' ' :: r)) =
      ((splitPathAux S).1, (splitPathAux S).2 ++ splitPath r) := by
  induction S using splitPathAux.induct with
  | case1 =>
    rw [List.nil_append, splitPathAux_sep]
    rfl
  | case2 c =>
    rw [show (([c] : Text) ++ (' ' :: '/' :: ' ' :: r)) =
      c :: ' ' :: '/' :: ' ' :: r from rfl]
    rw [splitPathAux_cons_neg c ' ' '/' (' ' :: r)
      (by rintro ⟨-, hc, -⟩; exact absurd hc (by decide))]
    rw [splitPathAux_sep]
    rfl
  | case3 c d =>
    have hcd : ¬ (c = ' ' ∧ d = '/' ∧ (' ' : Char) = ' ') := by
      rintro ⟨rfl, rfl, -⟩
      exact h (List.suffix_refl _)
    rw [show (([c, d] : Text) ++ (' ' :: '/' :: ' ' :: r)) =
      c :: d :: ' ' :: '/' :: ' ' :: r from rfl]
    rw [splitPathAux_cons_neg c d ' ' ('/' :: ' ' :: r) hcd]
    rw [splitPathAux_cons_neg d ' ' '/' (' ' :: r)
      (by rintro ⟨-, hc, -⟩; exact absurd hc (by decide))]
    rw [splitPathAux_sep]
    rfl
  | case4 c d e rest hc ih =>
    obtain ⟨rfl, rfl, rfl⟩ := hc
    have hrest : ¬ ([' ', '/'] <:+ rest) :=
      noSlashEnd_cons (noSlashEnd_cons (noSlashEnd_cons h))
    rw [show ((' ' :: '/' :: ' ' :: rest) ++ (' ' :: '/' :: ' ' :: r)) =
      ' ' :: '/' :: ' ' :: (rest ++ (' ' :: '/' :: ' ' :: r)) from rfl]
    rw [splitPathAux_sep, splitPathAux_sep, ih hrest]
    rfl
  | case5 c d e rest hc ih =>
    have htail : ¬ ([' ', '/'] <:+ (d :: e :: rest)) := noSlashEnd_cons h
    rw [show ((c :: d :: e :: rest) ++ (' ' :: '/' :: ' ' :: r)) =
      c :: d :: e :: (rest ++ (' ' :: '/' :: ' ' :: r)) from rfl]
    rw [splitPathAux_cons_neg c d e _ hc]
    rw [show (d :: e :: (rest ++ (' ' :: '/' :: ' ' :: r))) =
      ((d :: e :: rest) ++ (' ' :: '/' :: ' ' :: r)) from rfl]
    rw [ih htail]
    rw [splitPathAux_cons_neg c d e rest hc]

theorem splitPath_append {S : Text} (r : Text) (h : ¬ ([' ', '/'] <:+ S)) :
    splitPath (S ++ SEP ++ r) = splitPath S ++ splitPath r := by
  rw [show (S ++ SEP ++ r) = S ++ (' ' :: '/' :: ' ' :: r) by
    rw [List.append_assoc]; rfl]
  unfold splitPath
  rw [splitPathAux_append r h]
  rfl

theorem splitPath_ne_nil (s : Text) : splitPath s ≠ [] := by
  unfold splitPath
  exact List.cons_ne_nil _ _

theorem joinPath_cons_head (c : Char) (x : Text) (xs : List Text) :
    joinPath ((c :: x) :: xs) = c :: joinPath (x :: xs) := by
  cases xs <;> rfl

theorem joinPath_splitPath (s : Text) : joinPath (splitPath s) = s := by
  induction s using splitPathAux.induct with
  | case1 => rfl
  | case2 c => rfl
  | case3 c d => rfl
  | case4 c d e rest hc ih =>
    obtain ⟨rfl, rfl, rfl⟩ := hc
    unfold splitPath at ih ⊢
    rw [splitPathAux_sep]
    show joinPath ([] :: (splitPathAux rest).1 :: (splitPathAux rest).2) = _
    rw [show joinPath ([] :: (splitPathAux rest).1 :: (splitPathAux rest).2) =
      [] ++ SEP ++ joinPath ((splitPathAux rest).1 :: (splitPathAux rest).2) from rfl]
    rw [ih]
    rfl
  | case5 c d e rest hc ih =>
    unfold splitPath at ih ⊢
    rw [splitPathAux_cons_neg c d e rest hc]
    rw [joinPath_cons_head]
    rw [ih]

theorem joinPath_append {l1 l2 : List Text} (h1 : l1 ≠ []) (h2 : l2 ≠ []) :
    joinPath (l1 ++ l2) = joinPath l1 ++ SEP ++ joinPath l2 := by
  induction l1 with
  | nil => exact absurd rfl h1
  | cons x t ih =>
    cases t with
    | nil =>
      cases l2 with
      | nil => exact absurd rfl h2
      | cons y u => rfl
    | cons y t' =>
      have := ih (List.cons_ne_nil y t')
      rw [show ((x :: y :: t') ++ l2) = x :: ((y :: t') ++ l2) from rfl]
      rw [show joinPath (x :: ((y :: t') ++ l2)) =
        x ++ SEP ++ joinPath ((y :: t') ++ l2) by
          cases l2 with
          | nil => exact absurd rfl h2
          | cons z u => rfl]
      rw [this]
      rw [show joinPath (x :: y :: t') = x ++ SEP ++ joinPath (y :: t') from rfl]
      simp [List.append_assoc]

theorem isParentOrChildPath_iff {a b : List Text} :
    isParentOrChildPath a b = true ↔ (a <+: b ∨ b <+: a) := by
  induction a generalizing b with
  | nil =>
    simp [isParentOrChildPath]
  | cons x as ih =>
    cases b with
    | nil =>
      constructor
      · intro _
        exact Or.inr List.nil_prefix
      · intro _
        rfl
    | cons y bs =>
      show (if x = y then isParentOrChildPath as bs else false) = true ↔ _
      by_cases hxy : x = y
      · subst hxy
        rw [if_pos rfl, ih]
        simp [List.cons_prefix_cons]
      · rw [if_neg hxy]
        simp [List.cons_prefix_cons, hxy, Ne.symm hxy]

/-! Rendering lemmas. -/

theorem nodup_values_renderExclude (P E : Select) :
    ((renderExclude P E).options.map (fun o => o.value)).Nodup := by
  rw [renderExclude_options, List.map_map]
  have h1 : ((excludeMapOf P).map Prod.fst).Nodup := by
    unfold excludeMapOf
    exact nodup_keys_buildPure (by simp)
  have h2 := (sortByText_perm (excludeMapOf P)).map Prod.fst
  show ((sortByText (excludeMapOf P)).map Prod.fst).Nodup
  exact h2.nodup_iff.mpr h1

theorem mem_values_renderExclude {P E : Select} {v : Text} :
    (∃ o ∈ (renderExclude P E).options, o.value = v) ↔
      v ∈ (excludeMapOf P).map Prod.fst := by
  rw [renderExclude_options]
  constructor
  · rintro ⟨o, ho, rfl⟩
    obtain ⟨kv, hkv, rfl⟩ := List.mem_map.mp ho
    have hm : kv.1 ∈ (sortByText (excludeMapOf P)).map Prod.fst :=
      List.mem_map_of_mem Prod.fst hkv
    exact ((sortByText_perm (excludeMapOf P)).map Prod.fst).mem_iff.mp hm
  · intro hv
    obtain ⟨kv, hkv, hfst⟩ := List.mem_map.mp hv
    have hkv' : kv ∈ sortByText (excludeMapOf P) :=
      (sortByText_perm (excludeMapOf P)).mem_iff.mpr hkv
    exact ⟨_, List.mem_map_of_mem _ hkv', hfst⟩

/-- C8: after every recomputation, the exclude control's visible row count
equals `min n 10` for a positive rendered option count `n` and `1` when
`n = 0` (the `options.length || 1` fallback of line 61). -/
theorem C8_row_count (P E P' E' : Select)
    (h : updateExcludeCategories P E = some (P', E')) :
    (E'.options.length ≠ 0 → E'.size = min E'.options.length 10) ∧
    (E'.options.length = 0 → E'.size = 1) := by
  obtain ⟨-, -, rfl⟩ := updateExcludeCategories_some_inv h
  constructor
  · intro hn
    rw [renderExclude_size, if_neg hn]
  · intro hn
    rw [renderExclude_size, if_pos hn]
    decide

/-- Witness for C8 at the sample state (two candidates are rendered, so the
positive branch applies and gives `min 2 10`). -/
theorem C8_row_count_witness :
    ((renderExclude sampleP sampleE).options.length ≠ 0 →
      (renderExclude sampleP sampleE).size =
        min (renderExclude sampleP sampleE).options.length 10) ∧
    ((renderExclude sampleP sampleE).options.length = 0 →
      (renderExclude sampleP sampleE).size = 1) :=
  C8_row_count sampleP sampleE (applyAnyUpdate sampleP) (renderExclude sampleP sampleE)
    (by decide)

/-- C7: in the re-rendered exclude control, an option is marked selected
iff its value was selected in the exclude control before the
recomputation (line 126), and each value is rendered at most once (map
semantics); a previously selected value that is no longer a candidate
simply does not occur in the new rendering, and the run still succeeds. -/
theorem C7_selection_preserved (P E P' E' : Select)
    (h : updateExcludeCategories P E = some (P', E')) :
    (∀ o ∈ E'.options, (o.selected = true ↔ o.value ∈ selectedValues E)) ∧
    (E'.options.map (fun o => o.value)).Nodup := by
  obtain ⟨-, -, rfl⟩ := updateExcludeCategories_some_inv h
  refine ⟨?_, nodup_values_renderExclude P E⟩
  intro o ho
  rw [renderExclude_options] at ho
  obtain ⟨kv, hkv, rfl⟩ := List.mem_map.mp ho
  simp

/-- Witness for C7 at the sample state. -/
theorem C7_selection_preserved_witness :
    (∀ o ∈ (renderExclude sampleP sampleE).options,
      (o.selected = true ↔ o.value ∈ selectedValues sampleE)) ∧
    ((renderExclude sampleP sampleE).options.map (fun o => o.value)).Nodup :=
  C7_selection_preserved sampleP sampleE (applyAnyUpdate sampleP)
    (renderExclude sampleP sampleE) (by decide)

/-- C9: after `updateExcludeCategories`, the sentinel option of the primary
control is selected iff the previously selected value set was empty or
exactly the sentinel, and its disabled flag is the negation of its
selected flag (lines 73-76). -/
theorem C9_any_flags (P E P' E' : Select) (a : DOMOption)
    (h : updateExcludeCategories P E = some (P', E'))
    (ha : findOption ANY_VALUE P'.options = some a) :
    (a.selected = true ↔ (selectedValues P = [] ∨ selectedValues P = [ANY_VALUE])) ∧
    a.disabled = !a.selected := by
  obtain ⟨hany, rfl, -⟩ := updateExcludeCategories_some_inv h
  rw [show (applyAnyUpdate P).options = updateFirstOption ANY_VALUE
    (anyFlagUpdate (isAnySelectedOf (selectedValues P))) P.options from rfl] at ha
  rw [findOption_updateFirstOption_self (v := ANY_VALUE)
    (f := anyFlagUpdate (isAnySelectedOf (selectedValues P))) (fun _ => rfl)] at ha
  obtain ⟨a0, ha0⟩ := Option.isSome_iff_exists.mp hany
  rw [ha0] at ha
  have haa : a = anyFlagUpdate (isAnySelectedOf (selectedValues P)) a0 :=
    (Option.some.inj ha).symm
  subst haa
  refine ⟨?_, rfl⟩
  show isAnySelectedOf (selectedValues P) = true ↔ _
  exact isAnySelectedOf_eq_true_iff

/-- Witness for C9 at the sample state (Science is selected, so the
sentinel ends up deselected and disabled). -/
theorem C9_any_flags_witness :
    ((anyFlagUpdate (isAnySelectedOf (selectedValues sampleP))
        ⟨ANY_VALUE, "Any".toList, false, true⟩).selected = true ↔
      (selectedValues sampleP = [] ∨ selectedValues sampleP = [ANY_VALUE])) ∧
    (anyFlagUpdate (isAnySelectedOf (selectedValues sampleP))
        ⟨ANY_VALUE, "Any".toList, false, true⟩).disabled =
      !(anyFlagUpdate (isAnySelectedOf (selectedValues sampleP))
        ⟨ANY_VALUE, "Any".toList, false, true⟩).selected :=
  C9_any_flags sampleP sampleE (applyAnyUpdate sampleP) (renderExclude sampleP sampleE)
    (anyFlagUpdate (isAnySelectedOf (selectedValues sampleP))
      ⟨ANY_VALUE, "Any".toList, false, true⟩)
    (by decide) (by decide)

/-- C6 counterexample: for the selected display path "a /" and the
candidate "a / / b", the string test of line 112 matches although the
candidate's " / "-segment list (["a", "/ b"]) does not strictly extend the
selected one (["a /"]), so the claimed equivalence fails as stated. -/
theorem C6_counterexample :
    startsWithCheck "a /".toList "a / / b".toList = true ∧
    ¬ (splitPath "a /".toList <+: splitPath "a / / b".toList ∧
       splitPath "a /".toList ≠ splitPath "a / / b".toList) := by
  decide

/-- C6 amended: provided the selected display path does not end in the
two-character fragment " /", the string test `startsWith(selected + " / ")`
of line 112 is equivalent to the segment-wise reference definition: the
candidate qualifies iff its " / "-segment list strictly extends the
selected option's segment list.  In particular (under that proviso) a
sibling label such as "Sciences" is never matched by "Science", and no
path matches itself. -/
theorem C6_amended (selText candText : Text) (h : ¬ ([' ', '/'] <:+ selText)) :
    startsWithCheck selText candText = true ↔
      (splitPath selText <+: splitPath candText ∧
       splitPath selText ≠ splitPath candText) := by
  constructor
  · intro hs
    have hpre : (selText ++ SEP) <+: candText := by
      rw [← List.isPrefixOf_iff_prefix]
      exact hs
    obtain ⟨r, hr⟩ := hpre
    have hcand : candText = selText ++ SEP ++ r := hr.symm
    rw [hcand, splitPath_append r h]
    refine ⟨⟨splitPath r, rfl⟩, ?_⟩
    intro heq
    have hlen := congrArg List.length heq
    rw [List.length_append] at hlen
    cases hsp : splitPath r with
    | nil => exact splitPath_ne_nil r hsp
    | cons a t =>
      rw [hsp] at hlen
      simp at hlen
  · rintro ⟨⟨t, ht⟩, hne⟩
    have htne : t ≠ [] := by
      intro h0
      rw [h0, List.append_nil] at ht
      exact hne ht
    have hcand : candText = selText ++ SEP ++ joinPath t := by
      calc candText = joinPath (splitPath candText) := (joinPath_splitPath _).symm
        _ = joinPath (splitPath selText ++ t) := by rw [ht]
        _ = joinPath (splitPath selText) ++ SEP ++ joinPath t :=
            joinPath_append (splitPath_ne_nil _) htne
        _ = selText ++ SEP ++ joinPath t := by rw [joinPath_splitPath]
    rw [hcand]
    unfold startsWithCheck
    rw [ List.isPrefixOf_iff_prefix]
    exact ⟨joinPath t, rfl⟩

/-- Witness for C6 at the spec's own example: "Science" (which does not
end in " /") against the genuine descendant "Science / Physics". -/
theorem C6_amended_witness :
    (¬ ([' ', '/'] <:+ "Science".toList)) ∧
    (startsWithCheck "Science".toList "Science / Physics".toList = true ↔
      (splitPath "Science".toList <+: splitPath "Science / Physics".toList ∧
       splitPath "Science".toList ≠ splitPath "Science / Physics".toList)) :=
  ⟨by decide, C6_amended "Science".toList "Science / Physics".toList (by decide)⟩

theorem disabledCheck_cons (opts : List DOMOption) (cur : List Text) (s : Text)
    (rest : List Text) :
    disabledCheck opts cur (s :: rest) =
      (if s = ANY_VALUE then disabledCheck opts cur rest
       else
         match findOption s opts with
         | none => none
         | some so =>
           if isParentOrChildPath cur (splitPath so.text) then some true
           else disabledCheck opts cur rest) := rfl

theorem disabledCheck_eq {opts : List DOMOption} {cur : List Text} {sels : List Text}
    (h : ∀ s ∈ sels, s ≠ ANY_VALUE → (findOption s opts).isSome) :
    disabledCheck opts cur sels = some (sels.any (disabledTest opts cur)) := by
  induction sels with
  | nil => rfl
  | cons s rest ih =>
    have htail := ih (fun x hx hne => h x (by simp [hx]) hne)
    rw [disabledCheck_cons, List.any_cons]
    by_cases hA : s = ANY_VALUE
    · rw [if_pos hA, htail]
      have : disabledTest opts cur s = false := by
        unfold disabledTest
        rw [if_pos hA]
      rw [this, Bool.false_or]
    · rw [if_neg hA]
      obtain ⟨so, hso⟩ := Option.isSome_iff_exists.mp (h s (by simp) hA)
      rw [hso]
      have hdt : disabledTest opts cur s =
          isParentOrChildPath cur (splitPath so.text) := by
        unfold disabledTest
        rw [if_neg hA, hso]
      show (if isParentOrChildPath cur (splitPath so.text) = true then some true
          else disabledCheck opts cur rest) =
        some (disabledTest opts cur s || rest.any (disabledTest opts cur))
      by_cases hp : isParentOrChildPath cur (splitPath so.text) = true
      · rw [if_pos hp, hdt, hp, Bool.true_or]
      · rw [if_neg hp, htail, hdt, Bool.of_not_eq_true hp, Bool.false_or]

theorem updateCategoryOption_eq {categoryOptions : List DOMOption} {sels : List Text}
    (o : DOMOption)
    (h : ∀ s ∈ sels, s ≠ ANY_VALUE → (findOption s categoryOptions).isSome) :
    updateCategoryOption categoryOptions sels o =
      some (pureCategoryOption categoryOptions sels o) := by
  unfold updateCategoryOption pureCategoryOption
  by_cases h1 : o.value = ANY_VALUE
  · rw [if_pos h1, if_pos h1]
  · rw [if_neg h1, if_neg h1]
    by_cases h2 : o.value ∈ sels
    · rw [if_pos h2, if_pos h2]
    · rw [if_neg h2, if_neg h2, disabledCheck_eq h]

theorem updateCategoryOptions_cons (categoryOptions : List DOMOption)
    (sels : List Text) (o : DOMOption) (rest : List DOMOption) :
    updateCategoryOptions categoryOptions sels (o :: rest) =
      (match updateCategoryOption categoryOptions sels o with
       | none => none
       | some o' =>
         match updateCategoryOptions categoryOptions sels rest with
         | none => none
         | some rest' => some (o' :: rest')) := rfl

theorem updateCategoryOptions_eq {categoryOptions : List DOMOption} {sels : List Text}
    (l : List DOMOption)
    (h : ∀ s ∈ sels, s ≠ ANY_VALUE → (findOption s categoryOptions).isSome) :
    updateCategoryOptions categoryOptions sels l =
      some (l.map (pureCategoryOption categoryOptions sels)) := by
  induction l with
  | nil => rfl
  | cons o rest ih =>
    rw [updateCategoryOptions_cons, updateCategoryOption_eq o h, ih]
    rfl

theorem updateCategorySelectionOptions_eq (S : Select) :
    updateCategorySelectionOptions S = some { S with options :=
      (S.options.map (pureCategoryOption S.options (selectedValues S))) } := by
  have hlook : ∀ s ∈ selectedValues S, s ≠ ANY_VALUE →
      (findOption s S.options).isSome := by
    intro s hs _
    rw [findOption_isSome_iff]
    obtain ⟨o, ho, _, hv⟩ := mem_selectedValues.mp hs
    exact ⟨o, ho, hv⟩
  unfold updateCategorySelectionOptions
  rw [updateCategoryOptions_eq S.options hlook]

/-- C10: after `updateCategorySelectionOptions`, options keep their value,
text and selected flag; the sentinel option is untouched; a selected
non-sentinel option is always enabled; and a non-selected non-sentinel
option is disabled iff some selected non-sentinel value's option has a
segment path that is a prefix of the option's segment path or is extended
by it (ancestor, descendant, or path-equal). -/
theorem C10_disable_rule (S S' : Select)
    (h : updateCategorySelectionOptions S = some S') :
    List.Forall₂ (fun o o' =>
      o'.value = o.value ∧ o'.text = o.text ∧ o'.selected = o.selected ∧
      (o.value = ANY_VALUE → o' = o) ∧
      (o.value ∈ selectedValues S → o.value ≠ ANY_VALUE → o'.disabled = false) ∧
      (o.value ∉ selectedValues S → o.value ≠ ANY_VALUE →
        (o'.disabled = true ↔ ∃ s ∈ selectedValues S, s ≠ ANY_VALUE ∧
          ∃ so, findOption s S.options = some so ∧
            (splitPath so.text <+: splitPath o.text ∨
             splitPath o.text <+: splitPath so.text))))
      S.options S'.options := by
  rw [updateCategorySelectionOptions_eq] at h
  have hS' : S' = { S with options :=
      (S.options.map (pureCategoryOption S.options (selectedValues S))) } :=
    (Option.some.inj h).symm
  subst hS'
  show List.Forall₂ _ S.options
    (S.options.map (pureCategoryOption S.options (selectedValues S)))
  rw [List.forall₂_map_right_iff]
  rw [List.forall₂_same]
  intro o ho
  unfold pureCategoryOption
  by_cases h1 : o.value = ANY_VALUE
  · rw [if_pos h1]
    exact ⟨rfl, rfl, rfl, fun _ => rfl, fun _ hne => absurd h1 hne,
      fun _ hne => absurd h1 hne⟩
  · rw [if_neg h1]
    by_cases h2 : o.value ∈ selectedValues S
    · rw [if_pos h2]
      exact ⟨rfl, rfl, rfl, fun hA => absurd hA h1, fun _ _ => rfl,
        fun hn _ => absurd h2 hn⟩
    · rw [if_neg h2]
      refine ⟨rfl, rfl, rfl, fun hA => absurd hA h1, fun hm _ => absurd hm h2,
        fun _ _ => ?_⟩
      show (selectedValues S).any (disabledTest S.options (splitPath o.text)) = true ↔ _
      rw [List.any_eq_true]
      constructor
      · rintro ⟨s, hs, hd⟩
        unfold disabledTest at hd
        by_cases hA : s = ANY_VALUE
        · rw [if_pos hA] at hd
          exact absurd hd (by simp)
        · rw [if_neg hA] at hd
          cases hfind : findOption s S.options with
          | none =>
            rw [hfind] at hd
            exact absurd hd (by simp)
          | some so =>
            rw [hfind] at hd
            have hd' : isParentOrChildPath (splitPath o.text) (splitPath so.text) = true := hd
            rcases isParentOrChildPath_iff.mp hd' with hrel | hrel
            · exact ⟨s, hs, hA, so, hfind, Or.inr hrel⟩
            · exact ⟨s, hs, hA, so, hfind, Or.inl hrel⟩
      · rintro ⟨s, hs, hA, so, hfind, hrel⟩
        refine ⟨s, hs, ?_⟩
        unfold disabledTest
        rw [if_neg hA, hfind]
        show isParentOrChildPath (splitPath o.text) (splitPath so.text) = true
        rcases hrel with hrel | hrel
        · exact isParentOrChildPath_iff.mpr (Or.inr hrel)
        · exact isParentOrChildPath_iff.mpr (Or.inl hrel)

/-- Witness for C10 at the sample state (Science selected: its descendants
Science / Physics and Science / Physics / Optics become disabled, Arts
stays enabled, the sentinel is untouched). -/
theorem C10_disable_rule_witness :
    List.Forall₂ (fun o o' =>
      o'.value = o.value ∧ o'.text = o.text ∧ o'.selected = o.selected ∧
      (o.value = ANY_VALUE → o' = o) ∧
      (o.value ∈ selectedValues sampleP → o.value ≠ ANY_VALUE → o'.disabled = false) ∧
      (o.value ∉ selectedValues sampleP → o.value ≠ ANY_VALUE →
        (o'.disabled = true ↔ ∃ s ∈ selectedValues sampleP, s ≠ ANY_VALUE ∧
          ∃ so, findOption s sampleP.options = some so ∧
            (splitPath so.text <+: splitPath o.text ∨
             splitPath o.text <+: splitPath so.text))))
      sampleP.options
      ({ sampleP with options :=
        sampleP.options.map (pureCategoryOption sampleP.options
          (selectedValues sampleP)) } : Select).options :=
  C10_disable_rule sampleP _ (updateCategorySelectionOptions_eq sampleP)

theorem updateFirstOption_forall₂ {v : Text} {f : DOMOption → DOMOption}
    (hf : ∀ o, (f o).value = o.value ∧ (f o).text = o.text) (l : List DOMOption) :
    List.Forall₂ (fun o o' => o'.value = o.value ∧ o'.text = o.text ∧
      (o.value ≠ v → o' = o)) l (updateFirstOption v f l) := by
  induction l with
  | nil => exact List.Forall₂.nil
  | cons o rest ih =>
    by_cases h : o.value = v
    · rw [updateFirstOption_cons_pos f rest h]
      exact List.Forall₂.cons ⟨(hf o).1, (hf o).2, fun hne => absurd h hne⟩
        (List.forall₂_same.mpr (fun a _ => ⟨rfl, rfl, fun _ => rfl⟩))
    · rw [updateFirstOption_cons_neg f rest h]
      exact List.Forall₂.cons ⟨rfl, rfl, fun _ => rfl⟩ ih

/-- C2 counterexample: with no primary option selected, a single run of
`updateExcludeCategories` flips the primary sentinel option's selected
flag from false to true (line 75), so the component does mutate the
primary control's selection state, contrary to the claim. -/
theorem C2_counterexample :
    ((⟨[⟨ANY_VALUE, "Any".toList, false, false⟩,
        ⟨"c1".toList, "Science".toList, false, false⟩], 2⟩ : Select).options.map
       (fun o => o.selected) = [false, false]) ∧
    ((updateExcludeCategories
        ⟨[⟨ANY_VALUE, "Any".toList, false, false⟩,
          ⟨"c1".toList, "Science".toList, false, false⟩], 2⟩ ⟨[], 1⟩).map
      (fun r => r.1.options.map (fun o => o.selected)) = some [true, false]) := by
  decide

/-- C2 amended: a recomputation leaves the primary control's option
identities (values and texts), its size, and every non-sentinel option
entirely unchanged; only the sentinel option's selected and disabled
flags may change.  `updateCategorySelectionOptions` additionally leaves
values, texts, selected flags and size of its control unchanged (only
disabled flags are recomputed).  The exclude control's options, selection
markup and size remain the only other mutated state. -/
theorem C2_amended (P E P' E' C C' : Select)
    (h1 : updateExcludeCategories P E = some (P', E'))
    (h2 : updateCategorySelectionOptions C = some C') :
    (P'.size = P.size ∧
     List.Forall₂ (fun o o' => o'.value = o.value ∧ o'.text = o.text ∧
       (o.value ≠ ANY_VALUE → o' = o)) P.options P'.options) ∧
    (C'.size = C.size ∧
     List.Forall₂ (fun o o' => o'.value = o.value ∧ o'.text = o.text ∧
       o'.selected = o.selected) C.options C'.options) := by
  obtain ⟨-, rfl, -⟩ := updateExcludeCategories_some_inv h1
  constructor
  · refine ⟨rfl, ?_⟩
    show List.Forall₂ _ P.options (updateFirstOption ANY_VALUE
      (anyFlagUpdate (isAnySelectedOf (selectedValues P))) P.options)
    exact updateFirstOption_forall₂ (v := ANY_VALUE)
      (f := anyFlagUpdate (isAnySelectedOf (selectedValues P)))
      (fun _ => ⟨rfl, rfl⟩) P.options
  · rw [updateCategorySelectionOptions_eq] at h2
    have hC' : C' = { C with options :=
        (C.options.map (pureCategoryOption C.options (selectedValues C))) } :=
      (Option.some.inj h2).symm
    subst hC'
    refine ⟨rfl, ?_⟩
    show List.Forall₂ _ C.options
      (C.options.map (pureCategoryOption C.options (selectedValues C)))
    rw [List.forall₂_map_right_iff, List.forall₂_same]
    intro o ho
    unfold pureCategoryOption
    by_cases hA : o.value = ANY_VALUE
    · rw [if_pos hA]
      exact ⟨rfl, rfl, rfl⟩
    · rw [if_neg hA]
      by_cases hm : o.value ∈ selectedValues C
      · rw [if_pos hm]
        exact ⟨rfl, rfl, rfl⟩
      · rw [if_neg hm]
        exact ⟨rfl, rfl, rfl⟩

/-- Witness for C2 at the sample state. -/
theorem C2_amended_witness :
    (((applyAnyUpdate sampleP).size = sampleP.size ∧
     List.Forall₂ (fun o o' => o'.value = o.value ∧ o'.text = o.text ∧
       (o.value ≠ ANY_VALUE → o' = o)) sampleP.options (applyAnyUpdate sampleP).options) ∧
    (({ sampleP with options :=
        (sampleP.options.map (pureCategoryOption sampleP.options
          (selectedValues sampleP))) } : Select).size = sampleP.size ∧
     List.Forall₂ (fun o o' => o'.value = o.value ∧ o'.text = o.text ∧
       o'.selected = o.selected) sampleP.options
       ({ sampleP with options :=
        (sampleP.options.map (pureCategoryOption sampleP.options
          (selectedValues sampleP))) } : Select).options)) :=
  C2_amended sampleP sampleE (applyAnyUpdate sampleP) (renderExclude sampleP sampleE)
    sampleP _ (by decide) (updateCategorySelectionOptions_eq sampleP)

theorem initConfigurationCategoryFilter_some_some (cs es : Select) :
    initConfigurationCategoryFilter (some cs) (some es) =
      (match updateExcludeCategories cs es with
       | none => none
       | some (cs', es') =>
         match updateCategorySelectionOptions cs' with
         | none => none
         | some cs'' =>
           match updateCategorySelectionOptions es' with
           | none => none
           | some es'' =>
             some { listeners := [(ControlId.category, Handler.primaryChange),
                                  (ControlId.exclude, Handler.excludeChange)],
                    categoryControl := some cs'', excludeControl := some es'' }) := rfl

/-- C3 counterexample: on a state where both controls exist, init registers
a change listener on the secondary (exclude) control as well (lines 44-46),
contrary to the claim that only the primary control is subscribed. -/
theorem C3_counterexample :
    (initConfigurationCategoryFilter (some sampleP) (some sampleE)).map
        (fun out => decide ((ControlId.exclude, Handler.excludeChange) ∈ out.listeners)) =
      some true := by
  decide

/-- C3 amended: init attaches change listeners to both controls; the
primary's handler recomputes the exclude option set, while the exclude
control's own handler runs only `updateCategorySelectionOptions` on the
exclude control — it leaves the primary untouched and changes no option
values, texts, selected flags or the size of the exclude control (only
disabled flags), so no re-derivation of the exclude option set is
triggered by a change of the secondary control. -/
theorem C3_amended (P E : Select) (out : InitOutcome) (c e r1 r2 : Select)
    (h : initConfigurationCategoryFilter (some P) (some E) = some out)
    (h2 : runHandler Handler.excludeChange c e = some (r1, r2)) :
    out.listeners = [(ControlId.category, Handler.primaryChange),
                     (ControlId.exclude, Handler.excludeChange)] ∧
    r1 = c ∧ r2.size = e.size ∧
    List.Forall₂ (fun o o' => o'.value = o.value ∧ o'.text = o.text ∧
      o'.selected = o.selected) e.options r2.options := by
  have hlst : out.listeners = [(ControlId.category, Handler.primaryChange),
      (ControlId.exclude, Handler.excludeChange)] := by
    rw [initConfigurationCategoryFilter_some_some] at h
    cases hU : updateExcludeCategories P E with
    | none =>
      rw [hU] at h
      exact absurd h (by simp)
    | some r =>
      obtain ⟨cs', es'⟩ := r
      rw [hU] at h
      have h' : (match updateCategorySelectionOptions cs' with
        | none => none
        | some cs'' =>
          match updateCategorySelectionOptions es' with
          | none => none
          | some es'' =>
            some ({ listeners := [(ControlId.category, Handler.primaryChange),
                                  (ControlId.exclude, Handler.excludeChange)],
                    categoryControl := some cs'',
                    excludeControl := some es'' } : InitOutcome)) = some out := h
      rw [updateCategorySelectionOptions_eq cs',
        updateCategorySelectionOptions_eq es'] at h'
      have hout := Option.some.inj h'
      rw [← hout]
  refine ⟨hlst, ?_⟩
  have h2' : (match updateCategorySelectionOptions e with
      | none => none
      | some e' => some (c, e')) = some (r1, r2) := h2
  rw [updateCategorySelectionOptions_eq e] at h2'
  have hpair := Option.some.inj h2'
  have hr1 : r1 = c := (congrArg Prod.fst hpair).symm
  have hr2 : r2 = { e with options :=
      (e.options.map (pureCategoryOption e.options (selectedValues e))) } :=
    (congrArg Prod.snd hpair).symm
  subst hr1
  subst hr2
  refine ⟨rfl, rfl, ?_⟩
  show List.Forall₂ _ e.options
    (e.options.map (pureCategoryOption e.options (selectedValues e)))
  rw [List.forall₂_map_right_iff, List.forall₂_same]
  intro o ho
  unfold pureCategoryOption
  by_cases hA : o.value = ANY_VALUE
  · rw [if_pos hA]
    exact ⟨rfl, rfl, rfl⟩
  · rw [if_neg hA]
    by_cases hm : o.value ∈ selectedValues e
    · rw [if_pos hm]
      exact ⟨rfl, rfl, rfl⟩
    · rw [if_neg hm]
      exact ⟨rfl, rfl, rfl⟩

/-- Witness for C3 at concrete states: a one-option primary consisting of
the sentinel, plus empty controls for the exclude-handler run. -/
theorem C3_amended_witness :
    (⟨[(ControlId.category, Handler.primaryChange),
        (ControlId.exclude, Handler.excludeChange)],
       some ⟨[⟨ANY_VALUE, "Any".toList, true, false⟩], 1⟩,
       some ⟨[], 1⟩⟩ : InitOutcome).listeners =
      [(ControlId.category, Handler.primaryChange),
       (ControlId.exclude, Handler.excludeChange)] ∧
    (⟨[], 1⟩ : Select) = ⟨[], 1⟩ ∧
    (⟨[], 1⟩ : Select).size = (⟨[], 1⟩ : Select).size ∧
    List.Forall₂ (fun o o' => o'.value = o.value ∧ o'.text = o.text ∧
      o'.selected = o.selected) (⟨[], 1⟩ : Select).options (⟨[], 1⟩ : Select).options :=
  C3_amended ⟨[⟨ANY_VALUE, "Any".toList, false, false⟩], 1⟩ ⟨[], 1⟩
    ⟨[(ControlId.category, Handler.primaryChange),
      (ControlId.exclude, Handler.excludeChange)],
     some ⟨[⟨ANY_VALUE, "Any".toList, true, false⟩], 1⟩, some ⟨[], 1⟩⟩
    ⟨[], 1⟩ ⟨[], 1⟩ ⟨[], 1⟩ ⟨[], 1⟩ (by decide) (by decide)

/-- C4 counterexample: on a primary control without the sentinel option,
`updateExcludeCategories` throws (the `anyOption.selected` assignment of
line 75 dereferences the `null` returned by `querySelector`), modelled
here by the run returning `none`; so not every recomputation on a control
state completes without throwing. -/
theorem C4_counterexample :
    updateExcludeCategories
      ⟨[⟨"c1".toList, "Science".toList, true, false⟩], 1⟩ ⟨[], 1⟩ = none := by
  decide

/-- C4 amended: init with either control absent is a silent no-op (no
listeners, no state change, nothing raised); `updateCategorySelectionOptions`
never fails; and provided the primary control contains the sentinel
option, `updateExcludeCategories` completes without throwing as well. -/
theorem C4_amended (P E S : Select) (c e : Option Select)
    (h : (findOption ANY_VALUE P.options).isSome) :
    (updateExcludeCategories P E).isSome ∧
    (updateCategorySelectionOptions S).isSome ∧
    initConfigurationCategoryFilter none e = some ⟨[], none, e⟩ ∧
    initConfigurationCategoryFilter c none = some ⟨[], c, none⟩ := by
  refine ⟨?_, ?_, ?_, ?_⟩
  · rw [updateExcludeCategories_spec h]
    rfl
  · rw [updateCategorySelectionOptions_eq]
    rfl
  · rfl
  · cases c with
    | none => rfl
    | some cs => rfl

/-- Witness for C4 at the sample state. -/
theorem C4_amended_witness :
    (updateExcludeCategories sampleP sampleE).isSome ∧
    (updateCategorySelectionOptions sampleE).isSome ∧
    initConfigurationCategoryFilter none (some sampleE) = some ⟨[], none, some sampleE⟩ ∧
    initConfigurationCategoryFilter (some sampleP) none = some ⟨[], some sampleP, none⟩ :=
  C4_amended sampleP sampleE sampleE (some sampleP) (some sampleE) (by decide)

theorem mem_keys_excludeMapOf {P : Select} {v : Text} :
    v ∈ (excludeMapOf P).map Prod.fst ↔
      ∃ o ∈ P.options, o.value = v ∧ v ≠ ANY_VALUE ∧
        (isAnySelectedOf (selectedValues P) = true ∨
          ∃ s ∈ selectedValues P, childTest P.options o.text s = true) := by
  unfold excludeMapOf
  rw [mem_keys_buildPure]
  simp only [List.map_nil, List.not_mem_nil, false_or]
  constructor
  · rintro ⟨o, hof, hq, hv⟩
    obtain ⟨ho', hne'⟩ := List.mem_filter.mp hof
    have hne : o.value ≠ ANY_VALUE := by simpa using hne'
    have hmm : (o.value, o.text) ∈ P.options.map (fun o => (o.value, o.text)) := by
      rw [← applyAnyUpdate_map_vt P]
      exact List.mem_map_of_mem _ ho'
    obtain ⟨o2, ho2, heq⟩ := List.mem_map.mp hmm
    have h2v : o2.value = o.value := congrArg Prod.fst heq
    have h2t : o2.text = o.text := congrArg Prod.snd heq
    refine ⟨o2, ho2, by rw [h2v, hv], by rw [← hv]; exact hne, ?_⟩
    by_cases hA : isAnySelectedOf (selectedValues P) = true
    · exact Or.inl hA
    · right
      have hA' : isAnySelectedOf (selectedValues P) = false :=
        Bool.of_not_eq_true hA
      unfold excludeQualify at hq
      rw [if_neg hA, postAddSelected_of_not_isAny hA'] at hq
      obtain ⟨s, hs, hct⟩ := List.any_eq_true.mp hq
      refine ⟨s, hs, ?_⟩
      rw [h2t, ← childTest_congr (applyAnyUpdate_map_vt P) o.text s]
      exact hct
  · rintro ⟨o2, ho2, hv, hne, hcond⟩
    have hmm : (o2.value, o2.text) ∈
        (applyAnyUpdate P).options.map (fun o => (o.value, o.text)) := by
      rw [applyAnyUpdate_map_vt P]
      exact List.mem_map_of_mem _ ho2
    obtain ⟨o, ho', heq⟩ := List.mem_map.mp hmm
    have h2v : o.value = o2.value := congrArg Prod.fst heq
    have h2t : o.text = o2.text := congrArg Prod.snd heq
    refine ⟨o, List.mem_filter.mpr ⟨ho', by simp [h2v, hv, hne]⟩, ?_, by rw [h2v, hv]⟩
    unfold excludeQualify
    by_cases hA : isAnySelectedOf (selectedValues P) = true
    · rw [if_pos hA, postAddSelected_of_isAny hA]
      simp [h2v, hv, hne]
    · have hA' : isAnySelectedOf (selectedValues P) = false :=
        Bool.of_not_eq_true hA
      rw [if_neg hA, postAddSelected_of_not_isAny hA']
      rcases hcond with hcond | ⟨s, hs, hct⟩
      · exact absurd hcond hA
      · rw [List.any_eq_true]
        refine ⟨s, hs, ?_⟩
        rw [childTest_congr (applyAnyUpdate_map_vt P) o.text s, h2t]
        exact hct

/-- C1 counterexample: with no primary option selected at all, the
recomputed secondary candidate set is not empty — it contains every
non-sentinel primary option (lines 103-107 run with the sentinel treated
as selected), here the single option c1. -/
theorem C1_counterexample :
    ((⟨[⟨ANY_VALUE, "Any".toList, false, false⟩,
        ⟨"c1".toList, "Science".toList, false, false⟩], 2⟩ : Select).options.all
       (fun o => !o.selected) = true) ∧
    ((updateExcludeCategories
        ⟨[⟨ANY_VALUE, "Any".toList, false, false⟩,
          ⟨"c1".toList, "Science".toList, false, false⟩], 2⟩ ⟨[], 1⟩).map
      (fun r => r.2.options.map (fun o => o.value)) = some [("c1".toList)]) := by
  decide

/-- C1 amended: after a successful recomputation, a value is rendered in
the secondary control iff it is the value of a non-sentinel primary
option that either (a) qualifies because the previously selected set was
empty or only the sentinel — in which case every non-sentinel option
qualifies — or (b) has a selected option whose text plus " / " is a
string prefix of its text (the non-sentinel descendant rule of
lines 108-118). -/
theorem C1_amended (P E P' E' : Select) (v : Text)
    (h : updateExcludeCategories P E = some (P', E')) :
    (∃ o ∈ E'.options, o.value = v) ↔
      ∃ o ∈ P.options, o.value = v ∧ v ≠ ANY_VALUE ∧
        (isAnySelectedOf (selectedValues P) = true ∨
          ∃ s ∈ selectedValues P, childTest P.options o.text s = true) := by
  obtain ⟨-, -, rfl⟩ := updateExcludeCategories_some_inv h
  rw [mem_values_renderExclude]
  exact mem_keys_excludeMapOf

/-- Witness for C1 at the sample state and the value c2 (a descendant of
the selected Science). -/
theorem C1_amended_witness :
    (∃ o ∈ (renderExclude sampleP sampleE).options, o.value = "c2".toList) ↔
      ∃ o ∈ sampleP.options, o.value = "c2".toList ∧ "c2".toList ≠ ANY_VALUE ∧
        (isAnySelectedOf (selectedValues sampleP) = true ∨
          ∃ s ∈ selectedValues sampleP, childTest sampleP.options o.text s = true) :=
  C1_amended sampleP sampleE (applyAnyUpdate sampleP) (renderExclude sampleP sampleE)
    "c2".toList (by decide)

/-! Fixpoint lemmas for the idempotence analysis. -/

theorem adjustHeight_idem (s : Select) :
    adjustHeight (adjustHeight s) = adjustHeight s := rfl

theorem isAnySelected_singleton : isAnySelectedOf [ANY_VALUE] = true := by decide

theorem findOption_applyAnyUpdate {P : Select} {a0 : DOMOption}
    (ha0 : findOption ANY_VALUE P.options = some a0) :
    findOption ANY_VALUE (applyAnyUpdate P).options =
      some (anyFlagUpdate (isAnySelectedOf (selectedValues P)) a0) := by
  show findOption ANY_VALUE (updateFirstOption ANY_VALUE
    (anyFlagUpdate (isAnySelectedOf (selectedValues P))) P.options) = _
  rw [findOption_updateFirstOption_self (v := ANY_VALUE)
    (f := anyFlagUpdate (isAnySelectedOf (selectedValues P))) (fun _ => rfl), ha0]
  rfl

theorem applyAnyUpdate_fix {P : Select} {a0 : DOMOption}
    (ha0 : findOption ANY_VALUE P.options = some a0)
    (hA2 : isAnySelectedOf (selectedValues (applyAnyUpdate P)) =
      isAnySelectedOf (selectedValues P)) :
    applyAnyUpdate (applyAnyUpdate P) = applyAnyUpdate P := by
  show { applyAnyUpdate P with options := (updateFirstOption ANY_VALUE
    (anyFlagUpdate (isAnySelectedOf (selectedValues (applyAnyUpdate P))))
    (applyAnyUpdate P).options) } = applyAnyUpdate P
  rw [hA2]
  rw [updateFirstOption_eq_self (findOption_applyAnyUpdate ha0) rfl]

theorem filter_map_updateFirstOption_find {v : Text} {f : DOMOption → DOMOption}
    {l : List DOMOption} {a : DOMOption}
    (hfind : findOption v l = some a)
    (hsel : (f a).selected = a.selected) (hval : (f a).value = a.value) :
    ((updateFirstOption v f l).filter (fun o => o.selected)).map (fun o => o.value) =
      (l.filter (fun o => o.selected)).map (fun o => o.value) := by
  induction l with
  | nil => rfl
  | cons o rest ih =>
    by_cases hv : o.value = v
    · have ho : o = a := by
        rw [findOption_cons_pos rest hv] at hfind
        exact Option.some.inj hfind
      subst ho
      rw [updateFirstOption_cons_pos f rest hv]
      rw [List.filter_cons, List.filter_cons]
      by_cases hs : o.selected = true
      · simp [hs, hsel, hval]
      · simp [hs, hsel]
    · rw [findOption_cons_neg rest hv] at hfind
      rw [updateFirstOption_cons_neg f rest hv]
      rw [List.filter_cons, List.filter_cons]
      by_cases hs : o.selected = true <;> simp [hs, ih hfind]

theorem selectedValues_applyAnyUpdate_isAny {P : Select} {a0 : DOMOption}
    (ha0 : findOption ANY_VALUE P.options = some a0)
    (hA : isAnySelectedOf (selectedValues P) = true) :
    selectedValues (applyAnyUpdate P) = [ANY_VALUE] := by
  have hfind' := findOption_applyAnyUpdate ha0
  have hmem : anyFlagUpdate (isAnySelectedOf (selectedValues P)) a0 ∈
      (applyAnyUpdate P).options := findOption_mem hfind'
  have hsel : (anyFlagUpdate (isAnySelectedOf (selectedValues P)) a0).selected = true := hA
  have hval : (anyFlagUpdate (isAnySelectedOf (selectedValues P)) a0).value = ANY_VALUE := by
    show a0.value = ANY_VALUE
    exact findOption_value ha0
  apply dedup_eq_singleton
  · intro hnil
    have hm : ANY_VALUE ∈ ((applyAnyUpdate P).options.filter
        (fun o => o.selected)).map (fun o => o.value) :=
      List.mem_map.mpr ⟨_, List.mem_filter.mpr ⟨hmem, hsel⟩, hval⟩
    rw [hnil] at hm
    exact absurd hm (List.not_mem_nil _)
  · intro x hx
    obtain ⟨o, ho, hox⟩ := List.mem_map.mp hx
    obtain ⟨homem, hosel⟩ := List.mem_filter.mp ho
    rcases mem_updateFirstOption homem with hP | ⟨a, haP, hav, hoa⟩
    · have hmemP : o.value ∈ selectedValues P :=
        mem_selectedValues.mpr ⟨o, hP, by simpa using hosel, rfl⟩
      rcases isAnySelectedOf_eq_true_iff.mp hA with h0 | h1
      · rw [h0] at hmemP
        exact absurd hmemP (List.not_mem_nil _)
      · rw [h1] at hmemP
        rw [← hox]
        simpa using hmemP
    · rw [← hox, hoa]
      show a.value = ANY_VALUE
      exact hav

theorem selectedValues_applyAnyUpdate_not_any {P : Select} {a0 : DOMOption}
    (ha0 : findOption ANY_VALUE P.options = some a0)
    (hA : isAnySelectedOf (selectedValues P) = false)
    (hn : ANY_VALUE ∉ selectedValues P) :
    selectedValues (applyAnyUpdate P) = selectedValues P := by
  have ha0sel : a0.selected = false := by
    cases hs : a0.selected
    · rfl
    · exact absurd (mem_selectedValues.mpr
        ⟨a0, findOption_mem ha0, hs, findOption_value ha0⟩) hn
  have hfm := filter_map_updateFirstOption_find (v := ANY_VALUE)
    (f := anyFlagUpdate (isAnySelectedOf (selectedValues P))) ha0
    (by show isAnySelectedOf (selectedValues P) = a0.selected; rw [hA, ha0sel]) rfl
  show (((updateFirstOption ANY_VALUE (anyFlagUpdate (isAnySelectedOf (selectedValues P)))
    P.options).filter (fun o => o.selected)).map (fun o => o.value)).dedup =
    selectedValues P
  rw [hfm]
  rfl

theorem mem_selectedValues_renderExclude {P E : Select} {v : Text} :
    v ∈ selectedValues (renderExclude P E) ↔
      v ∈ (sortByText (excludeMapOf P)).map Prod.fst ∧ v ∈ selectedValues E := by
  rw [mem_selectedValues]
  rw [renderExclude_options]
  constructor
  · rintro ⟨o, ho, hsel, hval⟩
    obtain ⟨kv, hkv, rfl⟩ := List.mem_map.mp ho
    refine ⟨hval ▸ List.mem_map_of_mem Prod.fst hkv, ?_⟩
    have hE : kv.1 ∈ selectedValues E := by simpa using hsel
    exact hval ▸ hE
  · rintro ⟨h1, h2⟩
    obtain ⟨kv, hkv, hfst⟩ := List.mem_map.mp h1
    exact ⟨_, List.mem_map_of_mem _ hkv, by simpa [hfst] using h2, hfst⟩

theorem excludeMapOf_congr {Q P : Select}
    (hopts : (applyAnyUpdate Q).options = (applyAnyUpdate P).options)
    (hA : isAnySelectedOf (selectedValues Q) = isAnySelectedOf (selectedValues P))
    (hsels : postAddSelected Q = postAddSelected P) :
    excludeMapOf Q = excludeMapOf P := by
  simp only [excludeMapOf]
  rw [hopts, hA, hsels]

theorem renderExclude_stable {Q P E : Select}
    (hmap : excludeMapOf Q = excludeMapOf P) :
    renderExclude Q (renderExclude P E) = renderExclude P E := by
  have hflags : ∀ kv ∈ sortByText (excludeMapOf P),
      (decide (kv.1 ∈ selectedValues (renderExclude P E)) : Bool) =
        decide (kv.1 ∈ selectedValues E) := by
    intro kv hkv
    have h1 : kv.1 ∈ (sortByText (excludeMapOf P)).map Prod.fst :=
      List.mem_map_of_mem Prod.fst hkv
    apply decide_eq_decide.mpr
    rw [mem_selectedValues_renderExclude]
    constructor
    · rintro ⟨-, h2⟩
      exact h2
    · intro h2
      exact ⟨h1, h2⟩
  show adjustHeight { renderExclude P E with options :=
    ((sortByText (excludeMapOf Q)).map (fun kv =>
      { value := kv.1, text := kv.2,
        selected := decide (kv.1 ∈ selectedValues (renderExclude P E)),
        disabled := false })) } = renderExclude P E
  rw [hmap]
  have hopts : (sortByText (excludeMapOf P)).map (fun kv =>
      ({ value := kv.1, text := kv.2,
         selected := decide (kv.1 ∈ selectedValues (renderExclude P E)),
         disabled := false } : DOMOption)) = (renderExclude P E).options := by
    rw [renderExclude_options]
    apply List.map_congr_left
    intro kv hkv
    rw [hflags kv hkv]
  rw [hopts]
  show adjustHeight (renderExclude P E) = renderExclude P E
  exact adjustHeight_idem _

/-- C5 counterexample: with the sentinel and a real category both selected
and an option whose text literally extends the sentinel's text ("Any / B"),
one recomputation renders {c9} and deselects the sentinel, so a second
recomputation renders the empty set — running twice differs from running
once, refuting unconditional idempotence. -/
theorem C5_counterexample :
    ((updateExcludeCategories
        ⟨[⟨ANY_VALUE, "Any".toList, true, false⟩,
          ⟨"c1".toList, "X".toList, true, false⟩,
          ⟨"c9".toList, "Any / B".toList, false, false⟩], 3⟩ ⟨[], 1⟩).map
      (fun r => r.2.options.map (fun o => o.value)) = some [("c9".toList)]) ∧
    (((updateExcludeCategories
        ⟨[⟨ANY_VALUE, "Any".toList, true, false⟩,
          ⟨"c1".toList, "X".toList, true, false⟩,
          ⟨"c9".toList, "Any / B".toList, false, false⟩], 3⟩ ⟨[], 1⟩).bind
      (fun r => updateExcludeCategories r.1 r.2)).map
      (fun r => r.2.options.map (fun o => o.value)) = some []) := by
  decide

/-- C5 amended: the recomputation is idempotent on every state in which
the sentinel is not selected jointly with other values (i.e. the prior
selected set is empty, exactly the sentinel, or sentinel-free).  In the
excluded states the first run deselects the sentinel, which can change
the candidate set of a second run (see the counterexample). -/
theorem C5_amended (P E P' E' : Select)
    (hcond : isAnySelectedOf (selectedValues P) = true ∨
      ANY_VALUE ∉ selectedValues P)
    (h : updateExcludeCategories P E = some (P', E')) :
    updateExcludeCategories P' E' = some (P', E') := by
  obtain ⟨hany, rfl, rfl⟩ := updateExcludeCategories_some_inv h
  obtain ⟨a0, ha0⟩ := Option.isSome_iff_exists.mp hany
  by_cases hA : isAnySelectedOf (selectedValues P) = true
  · have hSV := selectedValues_applyAnyUpdate_isAny ha0 hA
    have hA2 : isAnySelectedOf (selectedValues (applyAnyUpdate P)) =
        isAnySelectedOf (selectedValues P) := by
      rw [hSV, hA, isAnySelected_singleton]
    have hfix := applyAnyUpdate_fix ha0 hA2
    have hsels : postAddSelected (applyAnyUpdate P) = postAddSelected P := by
      rw [postAddSelected_of_isAny (by rw [hSV]; exact isAnySelected_singleton),
        postAddSelected_of_isAny hA]
    have hmap := excludeMapOf_congr (congrArg Select.options hfix) hA2 hsels
    have hany' : (findOption ANY_VALUE (applyAnyUpdate P).options).isSome := by
      rw [findOption_applyAnyUpdate ha0]
      rfl
    rw [updateExcludeCategories_spec hany', hfix, renderExclude_stable hmap]
  · have hA' : isAnySelectedOf (selectedValues P) = false := Bool.of_not_eq_true hA
    have hn : ANY_VALUE ∉ selectedValues P := hcond.resolve_left hA
    have hSV := selectedValues_applyAnyUpdate_not_any ha0 hA' hn
    have hA2 : isAnySelectedOf (selectedValues (applyAnyUpdate P)) =
        isAnySelectedOf (selectedValues P) := by
      rw [hSV]
    have hfix := applyAnyUpdate_fix ha0 hA2
    have hsels : postAddSelected (applyAnyUpdate P) = postAddSelected P := by
      rw [postAddSelected_of_not_isAny (by rw [hSV]; exact hA'),
        postAddSelected_of_not_isAny hA', hSV]
    have hmap := excludeMapOf_congr (congrArg Select.options hfix) hA2 hsels
    have hany' : (findOption ANY_VALUE (applyAnyUpdate P).options).isSome := by
      rw [findOption_applyAnyUpdate ha0]
      rfl
    rw [updateExcludeCategories_spec hany', hfix, renderExclude_stable hmap]

/-- Witness for C5 at the sample state (sentinel not selected there). -/
theorem C5_amended_witness :
    updateExcludeCategories (applyAnyUpdate sampleP) (renderExclude sampleP sampleE) =
      some (applyAnyUpdate sampleP, renderExclude sampleP sampleE) :=
  C5_amended sampleP sampleE (applyAnyUpdate sampleP) (renderExclude sampleP sampleE)
    (by decide) (by decide)

end ConfigurationTour
